import Mathlib

/-!
Verification development for the dma_pwm repository (C sources under src/).

The C code is shallowly embedded: C `float`/`double` arithmetic is modelled
by exact rational arithmetic over `ℚ` (every concrete value appearing in the
claims is reached far from a rounding boundary, so the rational value and the
IEEE value truncate/round identically), machine integers by `ℕ`/`ℤ` with
explicit `% 2^32` where unsigned wrap matters, and the C casts and rounding
macros of dma_pwm.c by the explicit functions below.
-/

namespace DmaPwm

/-- Model of a C cast of a nonnegative-or-negative floating value to a signed
integer: truncation toward zero (`(int)n` in dma_pwm.c). -/
def ctrunc (q : ℚ) : ℤ :=
  if 0 ≤ q then ⌊q⌋ else -⌊-q⌋

/-- Model of a C cast of a floating value to an unsigned integer type
(`unsigned`, `size_t`) for the nonnegative values arising in dma_pwm.c. -/
def ctruncNat (q : ℚ) : ℕ :=
  (ctrunc q).toNat

/-- The `ROUND` macro of dma_pwm.c:
`ROUND(n) = ((n) - (int)(n) < 0.5) ? (int)(n) : (int)((n) + 1)`. -/
def cRound (q : ℚ) : ℤ :=
  if q - ctrunc q < 1/2 then ctrunc q else ctrunc (q + 1)

-- Error codes from include/dma_pwm.h, plus Linux errno ENOMEM.
def ECHNLREQ : ℤ := 1
def EINVPW : ℤ := 2
def ENOFREECHNL : ℤ := 3
def EINVCHNL : ℤ := 4
def EINVDUTY : ℤ := 5
def EINVGPIO : ℤ := 6
def EFREQNOTMET : ℤ := 7
def EPWMNOTSET : ℤ := 8
def ENOPIVER : ℤ := 9
def EMAPFAIL : ℤ := 10
def ESIGHDNFAIL : ℤ := 11
def ENOMEM : ℤ := 12

/-- The values `set_pwm` records on the channel structure when it succeeds
(`dma_channels[channel].*` updates at dma_pwm.c:1031-1039).  `cb_seq_num` is
the final total after the boundary control blocks are added. -/
structure SetPwmOut where
  t_sub_us : ℕ
  cb_seq_num : ℕ
  cb_set_num : ℕ
  cb_clr_num : ℕ
  freq_act : ℚ
  pwm_d_res : ℚ
  pwm_d_act : ℚ
  pages_req : ℕ
  deriving Repr, DecidableEq

/-- Result of a `set_pwm` call: either the recorded channel values or a
negative error code. -/
inductive SetPwmResult where
  | ok (out : SetPwmOut)
  | err (e : ℤ)
  deriving Repr, DecidableEq

/-- Sub-cycle period: `t_sub_us = 1e6 * (1.0 / freq)` assigned to `unsigned`
(dma_pwm.c:945). -/
def tSubUsOf (freq : ℚ) : ℕ :=
  ctruncNat (1000000 * (1 / freq))

/-- Base CB count: `cb_seq_num = (t_sub_us / pulse_width_us) / 2` assigned to
`size_t` (dma_pwm.c:948). -/
def cbSeqBase (pulse_width_us : ℚ) (t_sub_us : ℕ) : ℕ :=
  ctruncNat (((t_sub_us : ℚ) / pulse_width_us) / 2)

/-- Required pages: `pages_req = CEILING((cb_seq_num / getpagesize()))` with
`CEILING(n) = (int)(n) + 1` applied to an integer division (dma_pwm.c:951).
Note the division is the `size_t` division of the CB count by the page size
in BYTES. -/
def pagesReqOf (page_size cb_seq_num : ℕ) : ℕ :=
  cb_seq_num / page_size + 1

/-- Achieved frequency: `(1.0 / (cb_seq_num * pulse_width_us * 1e-6)) / 2`
(dma_pwm.c:974). -/
def freqActOf (pulse_width_us : ℚ) (cb_seq_num : ℕ) : ℚ :=
  (1 / ((cb_seq_num : ℚ) * pulse_width_us * (1/1000000))) / 2

/-- Duty resolution: `100.0 * (1 - (cb_seq_num - 1) / (float)cb_seq_num)`
where `cb_seq_num - 1` is `size_t` subtraction (dma_pwm.c:977). -/
def dutyResOf (cb_seq_num : ℕ) : ℚ :=
  100 * (1 - ((cb_seq_num - 1 : ℕ) : ℚ) / (cb_seq_num : ℚ))

/-- Achieved duty cycle (dma_pwm.c:980-988): keep the desired value when
`(int)duty_cycle % 100 == 0`, otherwise `ROUND(duty_cycle / pwm_d_res) *
pwm_d_res`. -/
def dutyActOf (duty_cycle pwm_d_res : ℚ) : ℚ :=
  if ctrunc duty_cycle % 100 = 0 then duty_cycle
  else (cRound (duty_cycle / pwm_d_res) : ℚ) * pwm_d_res

/-- Set-CB count: `(t_sub_us / pulse_width_us) * (pwm_d_act / 100) / 2`
assigned to `size_t` (dma_pwm.c:991). -/
def setNumOf (pulse_width_us : ℚ) (t_sub_us : ℕ) (pwm_d_act : ℚ) : ℕ :=
  ctruncNat (((t_sub_us : ℚ) / pulse_width_us) * (pwm_d_act / 100) / 2)

/-- The arithmetic core of `set_pwm` (dma_pwm.c:877-1081), embedded from the
source.  `pulse_width_us` is the engine quantum, `allocated_pages` the page
budget, `page_size` the value of `getpagesize()` (4096 on the Pi), and
`chanOk` the outcome of `check_channel` (the channel index is valid and
requested).  Float arithmetic is carried out in `ℚ`; the casts to `unsigned`
and `size_t` are the truncations `ctruncNat`.  `cb_clr_num` is
`abs(cb_seq_num - cb_set_num)` (dma_pwm.c:992), and the recorded
`cb_seq_num` is the base count plus the 1 or 2 boundary CBs
(dma_pwm.c:995). -/
def set_pwm (pulse_width_us : ℚ) (allocated_pages page_size : ℕ)
    (chanOk : Bool) (gpio : List ℤ) (freq duty_cycle : ℚ) : SetPwmResult :=
  if !chanOk then .err (-EINVCHNL)
  else if duty_cycle < 0 ∨ duty_cycle > 100 then .err (-EINVDUTY)
  else if gpio.any (fun g => decide (g < 0) || decide (g > 31)) then
    .err (- EINVGPIO)
  else
    let t_sub_us : ℕ := tSubUsOf freq
    let cb_seq_num : ℕ := cbSeqBase pulse_width_us t_sub_us
    let pages_req : ℕ := pagesReqOf page_size cb_seq_num
    if cb_seq_num = 0 then .err (-EFREQNOTMET)
    else if pages_req > allocated_pages then .err (-ENOMEM)
    else
      let pwm_d_res : ℚ := dutyResOf cb_seq_num
      let pwm_d_act : ℚ := dutyActOf duty_cycle pwm_d_res
      let cb_set_num : ℕ := setNumOf pulse_width_us t_sub_us pwm_d_act
      .ok ⟨t_sub_us,
        cb_seq_num + (if ctrunc duty_cycle % 100 = 0 then 1 else 2),
        cb_set_num,
        ((cb_seq_num : ℤ) - (cb_set_num : ℤ)).natAbs,
        freqActOf pulse_width_us cb_seq_num,
        pwm_d_res, pwm_d_act, pages_req⟩

/-- Model of a C cast of a nonnegative floating value to `unsigned int`:
truncation, wrapping modulo `2^32` when the value exceeds the type's range
(dma_pwm.c stores `clock_div_temp` and `pwm_rng_temp` in `unsigned int`). -/
def cUInt (q : ℚ) : ℕ :=
  ctruncNat q % 2 ^ 32

/-- The process-wide engine state touched by `config_pwm`: the globals
`clock_div`, `pwm_rng`, `pulse_width_us`, `allocated_pages` and the channel
status vector `dma_channels_status` (`true` = free, mirroring `1 =
available`) of dma_pwm.c:218-234. -/
structure EngineState where
  clock_div : ℕ
  pwm_rng : ℕ
  pulse_width_us : ℚ
  allocated_pages : ℤ
  status : List Bool
  deriving Repr, DecidableEq

/-- The engine state right after first-time initialization: `clock_div = 50`,
`pwm_rng = 100` (dma_pwm.c:218-219), `allocated_pages = DEFAULT_PAGES = 16`,
`pulse_width_us = 1e6 * (pwm_rng / (500e6 / clock_div)) = 10` µs
(dma_pwm.c:520-521), all seven channels free. -/
def initState : EngineState :=
  ⟨50, 100, 10, 16, [true, true, true, true, true, true, true]⟩

/-- Candidate clock divisor holding the PWM range constant:
`((pulse_width / 1000000.0) / pwm_rng) * DEFAULT_CLOCK_FREQ` assigned to
`unsigned int` (dma_pwm.c:389-390). -/
def candDivisorOf (pwm_rng : ℕ) (pulse_width : ℚ) : ℕ :=
  cUInt (((pulse_width / 1000000) / (pwm_rng : ℚ)) * 500000000)

/-- Recomputed PWM range after clamping the divisor:
`(pulse_width / 1000000.0) * ((float)DEFAULT_CLOCK_FREQ / clock_div_temp)`
assigned to `unsigned int` (dma_pwm.c:398-399). -/
def recomputedRngOf (pulse_width : ℚ) (div2 : ℕ) : ℕ :=
  cUInt ((pulse_width / 1000000) * ((500000000 : ℚ) / (div2 : ℚ)))

/-- `config_pwm` (dma_pwm.c:340-437), embedded from the source.  Returns the
(integral) C return value and the updated engine state.  Note that
`allocated_pages = pages` is assigned before the pulse-width bounds check
(dma_pwm.c:374), so the page budget is mutated even on the `-EINVPW` exits;
the clock divisor, range and pulse width are updated only on success
(dma_pwm.c:423-425). -/
def config_pwm (st : EngineState) (pages : ℤ) (pulse_width : ℚ) :
    ℤ × EngineState :=
  if st.status.any (fun b => !b) then (-ECHNLREQ, st)
  else
    let st1 := { st with allocated_pages := pages }
    if pulse_width > 35175782146 ∨ pulse_width < 2/5 then (-EINVPW, st1)
    else
      let cand : ℕ := candDivisorOf st.pwm_rng pulse_width
      if cand < 1 ∨ cand > 4095 then
        let div2 : ℕ := if cand < 1 then 1 else 4095
        let rng2 : ℕ := recomputedRngOf pulse_width div2
        if rng2 < 1 then (-EINVPW, st1)
        else
          (0,
            { st1 with
              clock_div := div2
              pwm_rng := rng2
              pulse_width_us :=
                ((rng2 : ℚ) / ((500000000 : ℚ) / (div2 : ℚ))) * 1000000 })
      else
        (0,
          { st1 with
            clock_div := cand
            pulse_width_us :=
              ((st.pwm_rng : ℚ) / ((500000000 : ℚ) / (cand : ℚ))) * 1000000 })

def NUM_DMA_CHANNELS : ℕ := 7

/-- Outcome of the channel-search loop of `request_pwm` (dma_pwm.c:748-775). -/
inductive ScanResult where
  | chan (i : ℕ)
  | nofree
  | fellThrough
  deriving Repr, DecidableEq

/-- The channel-search loop of `request_pwm` (dma_pwm.c:748-775), embedded
statement by statement: at index `i`, a free channel is taken (`.chan i`);
otherwise the loop returns `-ENOFREECHNL` only under the guard `i ==
NUM_DMA_CHANNELS` (`.nofree`); if the list is exhausted without either, the C
code falls out of the loop with the local `channel` still uninitialized
(`.fellThrough`). -/
def scanChannels (status : List Bool) (i n : ℕ) : ScanResult :=
  match status with
  | [] => .fellThrough
  | b :: rest =>
    if b then .chan i
    else if i = n then .nofree
    else scanChannels rest (i + 1) n

/-- `request_pwm` (dma_pwm.c:722-782) restricted to the channel bookkeeping:
the scan result plus the updated status vector (`0 =` taken written at
dma_pwm.c:755).  Hardware init is outside this model. -/
def request_pwm (status : List Bool) : ScanResult × List Bool :=
  match scanChannels status 0 NUM_DMA_CHANNELS with
  | .chan i => (.chan i, status.set i false)
  | r => (r, status)

/-- The status-vector effect of `free_pwm` (dma_pwm.c:1280-1335):
`check_channel` rejects out-of-range or unrequested channels, otherwise the
channel is marked free again (dma_pwm.c:1325). -/
def free_pwm_status (status : List Bool) (channel : ℤ) : List Bool :=
  if channel < 0 ∨ NUM_DMA_CHANNELS ≤ channel then status
  else if status.getD channel.toNat true then status
  else status.set channel.toNat true

/-- Does `needle` begin `hay`. -/
def leadsList (needle hay : List Char) : Bool :=
  match needle, hay with
  | [], _ => true
  | _ :: _, [] => false
  | c :: cs, d :: ds => c == d && leadsList cs ds

/-- `strstr(hay, needle) != NULL`: `needle` occurs contiguously in `hay`. -/
def hasSub (needle : List Char) : List Char → Bool
  | [] => leadsList needle []
  | d :: ds => leadsList needle (d :: ds) || hasSub needle ds

/-- Outcome of the revision-matching loop of `get_pi_version__`
(src/utility/get_pi_version.c:279-292). -/
inductive PiVersionResult where
  | found (v : ℕ)
  | explicitFail
  | fellOff
  deriving Repr, DecidableEq

/-- The revision-matching loop of `get_pi_version__`
(src/utility/get_pi_version.c:279-292), embedded statement by statement: at
table index `i` a `strstr` match yields the entry's version (`.found`); the
`return -1` is guarded by `i == (sizeof(pi_version) /
sizeof(struct pi_version_struct))` (`.explicitFail`); exhausting the table
without either leaves the local `version` uninitialized and returns it
(`.fellOff`). -/
def versionScan (entries : List (List Char × ℕ)) (i n : ℕ)
    (sub : List Char) : PiVersionResult :=
  match entries with
  | [] => .fellOff
  | (r, v) :: rest =>
    if hasSub r sub then .found v
    else if i = n then .explicitFail
    else versionScan rest (i + 1) n sub

/-- The revision table of src/utility/get_pi_version.c:44-248 (34 entries,
in source order). -/
def piVersionTable : List (List Char × ℕ) :=
  [(("0002").data, 1), (("0003").data, 1), (("0004").data, 1),
   (("0005").data, 1), (("0006").data, 1), (("0007").data, 1),
   (("0008").data, 1), (("0009").data, 1), (("000d").data, 1),
   (("000e").data, 1), (("000f").data, 1), (("0010").data, 1),
   (("0013").data, 1), (("900032").data, 1), (("0012").data, 1),
   (("0015").data, 1), (("a01041").data, 2), (("a21041").data, 2),
   (("a22042").data, 2), (("900092").data, 0), (("900093").data, 0),
   (("9000C1").data, 0), (("a02082").data, 3), (("a22082").data, 3),
   (("a020d3").data, 3), (("a020a0").data, 3), (("a02100").data, 3),
   (("a03111").data, 4), (("b03111").data, 4), (("c03111").data, 4),
   (("d03114").data, 4), (("b03114").data, 4), (("c03115").data, 4),
   (("c03131").data, 4)]

/-- The table-lookup phase of `get_pi_version__`, applied to the substring
extracted from the `Revision` line of /proc/cpuinfo. -/
def get_pi_version__ (sub : List Char) : PiVersionResult :=
  versionScan piVersionTable 0 piVersionTable.length sub

/-- An uncached-memory block (include/uncached_mem.h): allocation size, bus
address of the locked region, and mapped virtual address.  Addresses are
modelled as natural numbers below `2^32`. -/
structure UncachedMem where
  size : ℕ
  bus_addr : ℕ
  virt_addr : ℕ
  deriving Repr, DecidableEq

/-- `uncached_virt_to_bus_addr__` (src/memory/uncached_mem.c:111-126),
embedded from the source: the pointer difference is stored in a `uint32_t`
(wrap modulo `2^32`), the guard is `offset <= block->size`, and the failure
return is `(uint32_t)(-1) = 2^32 - 1`. -/
def uncached_virt_to_bus_addr__ (block : UncachedMem) (ptr : ℕ) : ℕ :=
  let offset : ℕ := (((ptr : ℤ) - (block.virt_addr : ℤ)) % 2 ^ 32).toNat
  if offset ≤ block.size then (block.bus_addr + offset) % 2 ^ 32
  else 2 ^ 32 - 1

-- DMA control-block `info` masks (dma_pwm.c:93-98).
def DMA_NO_WIDE_BURSTS : ℕ := 2 ^ 26
def DMA_WAIT_RESP : ℕ := 2 ^ 3
def DMA_DREQ : ℕ := 2 ^ 6
def DMA_PER_MAP (p : ℕ) : ℕ := p * 2 ^ 16

/-- A DMA control block (dma_pwm.c:190-198), reserved words omitted. -/
structure DmaCB where
  info : ℕ
  src : ℕ
  dst : ℕ
  length : ℕ
  stride : ℕ
  next : ℕ
  deriving Repr, DecidableEq

/-- One iteration of the CB-construction loop of `build_cb_seq`
(dma_pwm.c:808-866), embedded from the source.  `buf` is the selected CB
buffer, `cb_seq_num` the recorded total CB count, `cb_set_num` the set-CB
count, `pwm_d_des` the recorded desired duty cycle; `i` is the loop index.
The `next` pointers of the first CB and of the mid-ring clear CB go through
`uncached_virt_to_bus_addr__` on `dma_cb_seq + 1`, as does every
non-final wait CB; the final wait CB links back to
`cb_base_bus_addr` (dma_pwm.c:852-855). -/
def buildCbAt (buf : UncachedMem)
    (set_mask_bus clear_mask_bus gpset0 gpclr0 pwmfif1 : ℕ)
    (cb_seq_num cb_set_num : ℕ) (pwm_d_des : ℚ) (i : ℕ) : DmaCB :=
  let nextPtr : ℕ :=
    uncached_virt_to_bus_addr__ buf (buf.virt_addr + 32 * (i + 1))
  if i = 0 then
    ⟨DMA_NO_WIDE_BURSTS ||| DMA_WAIT_RESP,
      if ctrunc pwm_d_des ≠ 0 then set_mask_bus else clear_mask_bus,
      if ctrunc pwm_d_des ≠ 0 then gpset0 else gpclr0,
      4, 0, nextPtr⟩
  else if i = cb_set_num + 1 ∧ ctrunc pwm_d_des % 100 ≠ 0 then
    ⟨DMA_NO_WIDE_BURSTS ||| DMA_WAIT_RESP,
      clear_mask_bus, gpclr0, 4, 0, nextPtr⟩
  else
    ⟨DMA_NO_WIDE_BURSTS ||| DMA_WAIT_RESP ||| DMA_DREQ ||| DMA_PER_MAP 5,
      11259375, pwmfif1, 4, 0,
      if i = cb_seq_num - 1 then buf.bus_addr else nextPtr⟩

/-- `build_cb_seq` (dma_pwm.c:785-874): the list of control blocks written
into the selected buffer, in order. -/
def build_cb_seq (buf : UncachedMem)
    (set_mask_bus clear_mask_bus gpset0 gpclr0 pwmfif1 : ℕ)
    (cb_seq_num cb_set_num : ℕ) (pwm_d_des : ℚ) : List DmaCB :=
  (List.range cb_seq_num).map
    (buildCbAt buf set_mask_bus clear_mask_bus gpset0 gpclr0 pwmfif1
      cb_seq_num cb_set_num pwm_d_des)

/-! Supporting evaluation lemmas shared by several claim theorems. -/

lemma tSubUsOf_one : tSubUsOf 1 = 1000000 := by
  norm_num [tSubUsOf, ctruncNat, ctrunc]
  decide

lemma cbSeqBase_5000_1e6 : cbSeqBase 5000 1000000 = 100 := by
  norm_num [cbSeqBase, ctruncNat, ctrunc]
  decide

lemma dutyResOf_100 : dutyResOf 100 = 1 := by
  norm_num [dutyResOf]

lemma freqActOf_5000_100 : freqActOf 5000 100 = 1 := by
  norm_num [freqActOf]

lemma status_any_not_false {l : List Bool} (h : ∀ b ∈ l, b = true) :
    l.any (fun b => !b) = false := by
  induction l with
  | nil => rfl
  | cons b t ih =>
    have hb := h b (List.mem_cons_self b t)
    have ht := ih fun x hx => h x (List.mem_cons_of_mem b hx)
    simp [hb, ht]

/-- The `-ECHNLREQ` early exit of `config_pwm`: a single requested channel
makes the function return before touching any state. -/
lemma config_pwm_echnlreq (st : EngineState) (pages : ℤ) (pw : ℚ)
    (h : false ∈ st.status) : config_pwm st pages pw = (-ECHNLREQ, st) := by
  have hany : st.status.any (fun b => !b) = true :=
    List.any_eq_true.mpr ⟨false, h, rfl⟩
  simp [config_pwm, hany]

/-- The `-EINVPW` bounds exit of `config_pwm`: with no channel requested and
the pulse width out of bounds, the call fails after having stored `pages`
into `allocated_pages`, leaving the other globals untouched. -/
lemma config_pwm_einvpw (st : EngineState) (pages : ℤ) (pw : ℚ)
    (hall : ∀ b ∈ st.status, b = true)
    (hout : pw < 2/5 ∨ 35175782146 < pw) :
    config_pwm st pages pw = (-EINVPW, { st with allocated_pages := pages }) := by
  have hany := status_any_not_false hall
  have hcond : pw > 35175782146 ∨ pw < 2/5 :=
    hout.elim (fun h => Or.inr h) (fun h => Or.inl h)
  unfold config_pwm
  rw [hany]
  rw [if_neg Bool.false_ne_true]
  rw [if_pos hcond]

/-- The non-clamped path of `config_pwm`: with no channel requested, the
pulse width in bounds, and the candidate divisor inside `[1, 4095]`, the
engine keeps `pwm_rng` and installs the candidate divisor. -/
lemma config_pwm_inrange (st : EngineState) (pages : ℤ) (pw : ℚ)
    (hall : ∀ b ∈ st.status, b = true)
    (hlo : 2/5 ≤ pw) (hhi : pw ≤ 35175782146)
    (h1 : 1 ≤ candDivisorOf st.pwm_rng pw)
    (h2 : candDivisorOf st.pwm_rng pw ≤ 4095) :
    config_pwm st pages pw =
      (0,
        { st with
          allocated_pages := pages
          clock_div := candDivisorOf st.pwm_rng pw
          pulse_width_us := ((st.pwm_rng : ℚ) /
            ((500000000 : ℚ) / (candDivisorOf st.pwm_rng pw : ℚ))) * 1000000 }) := by
  have hany := status_any_not_false hall
  unfold config_pwm
  rw [hany]
  rw [if_neg Bool.false_ne_true]
  rw [if_neg (by push_neg; exact ⟨hhi, hlo⟩)]
  rw [if_neg (by push_neg; exact ⟨h1, h2⟩)]

/-- The high-clamp path of `config_pwm`: a candidate divisor above 4095 is
clamped to 4095 and the range recomputed. -/
lemma config_pwm_clamp_high (st : EngineState) (pages : ℤ) (pw : ℚ)
    (hall : ∀ b ∈ st.status, b = true)
    (hlo : 2/5 ≤ pw) (hhi : pw ≤ 35175782146)
    (h1 : 4095 < candDivisorOf st.pwm_rng pw)
    (h2 : 1 ≤ recomputedRngOf pw 4095) :
    config_pwm st pages pw =
      (0,
        { st with
          allocated_pages := pages
          clock_div := 4095
          pwm_rng := recomputedRngOf pw 4095
          pulse_width_us := ((recomputedRngOf pw 4095 : ℚ) /
            ((500000000 : ℚ) / (4095 : ℚ))) * 1000000 }) := by
  have hany := status_any_not_false hall
  have hd : (if candDivisorOf st.pwm_rng pw < 1 then 1 else 4095 : ℕ) = 4095 :=
    if_neg (by omega)
  unfold config_pwm
  rw [hany]
  rw [if_neg Bool.false_ne_true]
  rw [if_neg (by push_neg; exact ⟨hhi, hlo⟩)]
  rw [if_pos (Or.inr h1)]
  rw [hd]
  rw [if_neg (by omega)]
  norm_num

/-- The low-clamp path of `config_pwm`: a candidate divisor below 1 is
clamped to 1 and the range recomputed. -/
lemma config_pwm_clamp_low (st : EngineState) (pages : ℤ) (pw : ℚ)
    (hall : ∀ b ∈ st.status, b = true)
    (hlo : 2/5 ≤ pw) (hhi : pw ≤ 35175782146)
    (h1 : candDivisorOf st.pwm_rng pw < 1)
    (h2 : 1 ≤ recomputedRngOf pw 1) :
    config_pwm st pages pw =
      (0,
        { st with
          allocated_pages := pages
          clock_div := 1
          pwm_rng := recomputedRngOf pw 1
          pulse_width_us := ((recomputedRngOf pw 1 : ℚ) /
            ((500000000 : ℚ) / (1 : ℚ))) * 1000000 }) := by
  have hany := status_any_not_false hall
  have hd : (if candDivisorOf st.pwm_rng pw < 1 then 1 else 4095 : ℕ) = 1 :=
    if_pos h1
  unfold config_pwm
  rw [hany]
  rw [if_neg Bool.false_ne_true]
  rw [if_neg (by push_neg; exact ⟨hhi, hlo⟩)]
  rw [if_pos (Or.inl h1)]
  rw [hd]
  rw [if_neg (by omega)]
  norm_num

/-- The `i == NUM_DMA_CHANNELS` guard inside the channel-search loop of
`request_pwm` can never fire: the loop index stays strictly below the bound
while entries remain. -/
lemma scanChannels_ne_nofree (status : List Bool) (i n : ℕ)
    (h : i + status.length ≤ n) : scanChannels status i n ≠ .nofree := by
  induction status generalizing i with
  | nil => simp [scanChannels]
  | cons b rest ih =>
    simp only [scanChannels]
    split
    · simp
    · rw [if_neg (by simp at h; omega)]
      exact ih (i + 1) (by simp at h; omega)

/-- The `return -1` guard inside the revision-matching loop of
`get_pi_version__` can never fire, for the same reason. -/
lemma versionScan_ne_explicitFail (entries : List (List Char × ℕ))
    (i n : ℕ) (sub : List Char) (h : i + entries.length ≤ n) :
    versionScan entries i n sub ≠ .explicitFail := by
  induction entries generalizing i with
  | nil => simp [versionScan]
  | cons e rest ih =>
    simp only [versionScan]
    split
    · simp
    · rw [if_neg (by simp at h; omega)]
      exact ih (i + 1) (by simp at h; omega)

/-! Claim theorems. -/

/-- C1.  With pulse width 5000 µs, a 16-page budget and 4096-byte pages,
`set_pwm` on GPIO list `[26]`, frequency 1 Hz, duty 75 % succeeds and records
`t_sub = 1000000` µs, duty resolution 1 %, achieved duty 75 %,
`set_n = 75`, `clr_n = 25`, total `seq = 102`, with `set_n + clr_n` equal to
the base CB count 100. -/
theorem claim1_set_pwm_1hz_75 :
    set_pwm 5000 16 4096 true [26] 1 75 =
      .ok ⟨1000000, 102, 75, 25, 1, 1, 75, 1⟩ ∧
    cbSeqBase 5000 (tSubUsOf 1) = 100 ∧
    75 + 25 = cbSeqBase 5000 (tSubUsOf 1) := by
  have h4 : dutyActOf 75 1 = 75 := by
    norm_num [dutyActOf, ctrunc, cRound]
  have h5 : setNumOf 5000 1000000 75 = 75 := by
    norm_num [setNumOf, ctruncNat, ctrunc]
    decide
  refine ⟨?_, ?_, ?_⟩
  · simp only [set_pwm, tSubUsOf_one, cbSeqBase_5000_1e6, dutyResOf_100,
      h4, h5, freqActOf_5000_100, pagesReqOf]
    norm_num [ctrunc]
  · rw [tSubUsOf_one, cbSeqBase_5000_1e6]
  · rw [tSubUsOf_one, cbSeqBase_5000_1e6]

/-- C2.  The page check of `set_pwm` divides the CB count by the page size
in bytes, not in 32-byte CB units: at pulse width 5000 µs, frequency 0.04 Hz
and duty 50 % the base CB count is 2500, the code computes `pages_req =
2500 / 4096 + 1 = 1 ≤ 16` and succeeds, although `ceil(2500 / 128) = 20`
pages are needed and the 2502 emitted CBs (32 bytes each) overrun the
16-page (65536-byte) buffer. -/
theorem claim2_pages_check_in_bytes :
    set_pwm 5000 16 4096 true [26] (1/25) 50 =
      .ok ⟨25000000, 2502, 1250, 1250, 1/25, 1/25, 50, 1⟩ ∧
    cbSeqBase 5000 (tSubUsOf (1/25)) = 2500 ∧
    pagesReqOf 4096 2500 = 1 ∧
    (2500 + 128 - 1) / 128 = 20 ∧
    16 * 4096 < 2502 * 32 := by
  have h1 : tSubUsOf (1/25) = 25000000 := by
    norm_num [tSubUsOf, ctruncNat, ctrunc]
    decide
  have h2 : cbSeqBase 5000 25000000 = 2500 := by
    norm_num [cbSeqBase, ctruncNat, ctrunc]
    decide
  have h3 : dutyResOf 2500 = 1/25 := by
    norm_num [dutyResOf]
  have h4 : dutyActOf 50 (1/25) = 50 := by
    norm_num [dutyActOf, ctrunc, cRound]
  have h5 : setNumOf 5000 25000000 50 = 1250 := by
    norm_num [setNumOf, ctruncNat, ctrunc]
    decide
  have h6 : freqActOf 5000 2500 = 1/25 := by
    norm_num [freqActOf]
  refine ⟨?_, by rw [h1, h2], by norm_num [pagesReqOf], by norm_num, by norm_num⟩
  simp only [set_pwm, h1, h2, h3, h4, h5, h6, pagesReqOf]
  norm_num [ctrunc]

/-- C3.  The `(int)duty_cycle % 100 == 0` branch of `set_pwm` also captures
every fractional duty below 1 %: at duty 0.5 % (resolution 1 %) the achieved
duty is recorded as 0.5 unchanged — not snapped to the nearest multiple of
the resolution, which would be `ROUND(0.5 / 1) * 1 = 1` — while zero set-CBs
are emitted. -/
theorem claim3_subunit_duty_kept :
    set_pwm 5000 16 4096 true [26] 1 (1/2) =
      .ok ⟨1000000, 101, 0, 100, 1, 1, 1/2, 1⟩ ∧
    (cRound ((1/2 : ℚ) / 1) : ℚ) * 1 = 1 ∧
    (1/2 : ℚ) ≠ 1 := by
  have h4 : dutyActOf (1/2) 1 = 1/2 := by
    norm_num [dutyActOf, ctrunc]
  have h5 : setNumOf 5000 1000000 (1/2) = 0 := by
    norm_num [setNumOf, ctruncNat, ctrunc]
  refine ⟨?_, ?_, by norm_num⟩
  · simp only [set_pwm, tSubUsOf_one, cbSeqBase_5000_1e6, dutyResOf_100,
      h4, h5, freqActOf_5000_100, pagesReqOf]
    norm_num [ctrunc]
  · norm_num [cRound, ctrunc]

/-- C4.  `request_pwm` hands out the lowest-indexed free channel (0, then 1;
0 again after `free_pwm(0)`), but on a fully-requested pool the
`-ENOFREECHNL` branch is dead code — its guard `i == NUM_DMA_CHANNELS`
cannot hold inside a loop bounded by `i < NUM_DMA_CHANNELS` — and the scan
falls out of the loop with the channel variable uninitialized. -/
theorem claim4_request_scan :
    request_pwm [true, true, true, true, true, true, true] =
      (.chan 0, [false, true, true, true, true, true, true]) ∧
    request_pwm [false, true, true, true, true, true, true] =
      (.chan 1, [false, false, true, true, true, true, true]) ∧
    free_pwm_status [false, false, true, true, true, true, true] 0 =
      [true, false, true, true, true, true, true] ∧
    request_pwm [true, false, true, true, true, true, true] =
      (.chan 0, [false, false, true, true, true, true, true]) ∧
    request_pwm [false, false, false, false, false, false, false] =
      (.fellThrough, [false, false, false, false, false, false, false]) ∧
    ScanResult.fellThrough ≠ ScanResult.nofree := by
  decide

/-- C5 counterexample.  `config_pwm(16, 5000)` from the freshly initialized
engine (range 100) clamps the divisor to 4095 — it does not produce the
claimed `clock_div = 2500`. -/
theorem claim5_counterexample :
    (config_pwm initState 16 5000).2.clock_div = 4095 ∧
    (4095 : ℕ) ≠ 2500 := by
  have hc : candDivisorOf 100 5000 = 25000 := by
    norm_num [candDivisorOf, cUInt, ctruncNat, ctrunc]; decide
  have hr : recomputedRngOf 5000 4095 = 610 := by
    norm_num [recomputedRngOf, cUInt, ctruncNat, ctrunc]
    decide
  have h := config_pwm_clamp_high initState 16 5000 (by decide)
    (by norm_num) (by norm_num) (by rw [show initState.pwm_rng = 100 from rfl, hc]; omega)
    (by rw [hr]; omega)
  rw [h]
  norm_num

/-- C5 amended.  `config_pwm` first computes the candidate divisor holding
`pwm_rng` constant as `divisor = (pw/1e6) / pwm_rng * source_hz` (dividing,
not multiplying, by the range); only if that candidate lies outside
`[1, 4095]` does it clamp the divisor to the nearest bound and recompute
`pwm_rng = (pw/1e6) * (source_hz / divisor)`.  In particular
`config_pwm(16, 5000)` yields `clock_div = 4095`, `pwm_rng = 610` and an
achieved pulse width of 4995.9 µs. -/
theorem claim5_amended :
    (∀ (st : EngineState) (pages : ℤ) (pw : ℚ),
      (∀ b ∈ st.status, b = true) → 2/5 ≤ pw → pw ≤ 35175782146 →
      (1 ≤ candDivisorOf st.pwm_rng pw → candDivisorOf st.pwm_rng pw ≤ 4095 →
        (config_pwm st pages pw).2.clock_div = candDivisorOf st.pwm_rng pw ∧
        (config_pwm st pages pw).2.pwm_rng = st.pwm_rng) ∧
      (4095 < candDivisorOf st.pwm_rng pw → 1 ≤ recomputedRngOf pw 4095 →
        (config_pwm st pages pw).2.clock_div = 4095 ∧
        (config_pwm st pages pw).2.pwm_rng = recomputedRngOf pw 4095) ∧
      (candDivisorOf st.pwm_rng pw < 1 → 1 ≤ recomputedRngOf pw 1 →
        (config_pwm st pages pw).2.clock_div = 1 ∧
        (config_pwm st pages pw).2.pwm_rng = recomputedRngOf pw 1)) ∧
    config_pwm initState 16 5000 =
      (0, ⟨4095, 610, 49959/10, 16,
        [true, true, true, true, true, true, true]⟩) := by
  constructor
  · intro st pages pw hall hlo hhi
    refine ⟨fun h1 h2 => ?_, fun h1 h2 => ?_, fun h1 h2 => ?_⟩
    · rw [config_pwm_inrange st pages pw hall hlo hhi h1 h2]
      exact ⟨rfl, rfl⟩
    · rw [config_pwm_clamp_high st pages pw hall hlo hhi h1 h2]
      exact ⟨rfl, rfl⟩
    · rw [config_pwm_clamp_low st pages pw hall hlo hhi h1 h2]
      exact ⟨rfl, rfl⟩
  · have hc : candDivisorOf 100 5000 = 25000 := by
      norm_num [candDivisorOf, cUInt, ctruncNat, ctrunc]; decide
    have hr : recomputedRngOf 5000 4095 = 610 := by
      norm_num [recomputedRngOf, cUInt, ctruncNat, ctrunc]
      decide
    have h := config_pwm_clamp_high initState 16 5000 (by decide)
      (by norm_num) (by norm_num)
      (by rw [show initState.pwm_rng = 100 from rfl, hc]; omega)
      (by rw [hr]; omega)
    rw [h, hr]
    norm_num [initState]

/-- C5 witness: the amended general statement applied at a concrete in-range
input, `config_pwm(20, 40)` from the initial state, where the candidate
divisor 200 is accepted and the range 100 is kept. -/
theorem claim5_witness :
    (config_pwm initState 20 40).2.clock_div = candDivisorOf initState.pwm_rng 40 ∧
    (config_pwm initState 20 40).2.pwm_rng = initState.pwm_rng := by
  have hc : candDivisorOf 100 40 = 200 := by
    norm_num [candDivisorOf, cUInt, ctruncNat, ctrunc]; decide
  exact (claim5_amended.1 initState 20 40 (by decide) (by norm_num)
    (by norm_num)).1
    (by rw [show initState.pwm_rng = 100 from rfl, hc]; omega)
    (by rw [show initState.pwm_rng = 100 from rfl, hc]; omega)

/-- C6.  When the revision lookup of `get_pi_version__` exhausts its table
without a match (here on the substring `": zzzz"`), it does not reach the
explicit `-1` failure return: the `i == table-length` guard is dead code
inside a loop bounded by `i < table-length`, and the function falls off the
loop with its `version` variable uninitialized. -/
theorem claim6_version_scan_falls_off :
    get_pi_version__ ((": zzzz").data) = .fellOff ∧
    get_pi_version__ ((": a02082").data) = .found 3 ∧
    PiVersionResult.fellOff ≠ PiVersionResult.explicitFail := by
  decide

/-- C7.  The CB ring emitted by `build_cb_seq` does not always close: with
pulse width 5000 µs, frequency 1 Hz and duty 99.6 % the achieved duty rounds
up to 100 % so `cb_set_num = 100` equals the base count, and the final CB
(index 101 of 102) satisfies the mid-ring clear-CB condition
`i == cb_set_num + 1 && (int)duty % 100 != 0`; its `next` is then
`base + 32 * 102`, one past the ring, instead of the first CB's bus address
`base`. -/
theorem claim7_ring_not_closed :
    set_pwm 5000 16 4096 true [26] 1 (498/5) =
      .ok ⟨1000000, 102, 100, 0, 1, 1, 100, 1⟩ ∧
    (buildCbAt ⟨65536, 1000000, 0⟩ 2001 2002 3001 3002 3003
        102 100 (498/5) 101).next = 1003264 ∧
    (1003264 : ℕ) ≠ 1000000 := by
  have hct : ctrunc (498/5 : ℚ) = 99 := by
    norm_num [ctrunc]
  have h4 : dutyActOf (498/5) 1 = 100 := by
    norm_num [dutyActOf, ctrunc, cRound]
  have h5 : setNumOf 5000 1000000 100 = 100 := by
    norm_num [setNumOf, ctruncNat, ctrunc]
    decide
  refine ⟨?_, ?_, by norm_num⟩
  · simp only [set_pwm, tSubUsOf_one, cbSeqBase_5000_1e6, dutyResOf_100,
      h4, h5, freqActOf_5000_100, pagesReqOf, hct]
    norm_num
  · simp only [buildCbAt, hct, uncached_virt_to_bus_addr__]
    norm_num
    decide

/-- C8 counterexample.  `uncached_virt_to_bus_addr__` accepts a pointer
exactly at the end of the block: with size 4096, bus address 1000 and
virtual base 0, the pointer 4096 (offset = size) translates to 5096 instead
of returning the `(uint32_t)-1` failure sentinel. -/
theorem claim8_counterexample :
    uncached_virt_to_bus_addr__ ⟨4096, 1000, 0⟩ 4096 = 5096 ∧
    (5096 : ℕ) ≠ 2 ^ 32 - 1 := by
  decide

/-- C8 amended.  For a pointer at nonnegative offset from the virtual base,
`uncached_virt_to_bus_addr__` returns `bus_address + offset` whenever
`offset ≤ size` (including a pointer exactly at the end of the block), and
returns the failure sentinel `2^32 - 1` exactly when `offset > size`. -/
theorem claim8_amended (block : UncachedMem) (ptr : ℕ)
    (h1 : block.virt_addr ≤ ptr) (h2 : ptr - block.virt_addr < 2 ^ 32)
    (h3 : block.bus_addr + block.size < 2 ^ 32) :
    (ptr - block.virt_addr ≤ block.size →
      uncached_virt_to_bus_addr__ block ptr =
        block.bus_addr + (ptr - block.virt_addr)) ∧
    (block.size < ptr - block.virt_addr →
      uncached_virt_to_bus_addr__ block ptr = 2 ^ 32 - 1) := by
  have hcast : (((ptr : ℤ) - (block.virt_addr : ℤ)) % 2 ^ 32).toNat
      = ptr - block.virt_addr := by
    rw [← Nat.cast_sub h1]
    rw [Int.emod_eq_of_lt (by positivity) (by exact_mod_cast h2)]
    exact Int.toNat_natCast _
  constructor
  · intro hle
    simp only [uncached_virt_to_bus_addr__, hcast]
    rw [if_pos hle]
    exact Nat.mod_eq_of_lt
      (lt_of_le_of_lt (Nat.add_le_add_left hle block.bus_addr) h3)
  · intro hgt
    simp only [uncached_virt_to_bus_addr__, hcast]
    rw [if_neg (not_le.mpr hgt)]

/-- C8 witness: the amended statement applied at concrete in-range and
out-of-range pointers of a 4096-byte block at bus 1000, virtual base 0. -/
theorem claim8_witness :
    uncached_virt_to_bus_addr__ ⟨4096, 1000, 0⟩ 100 = 1100 ∧
    uncached_virt_to_bus_addr__ ⟨4096, 1000, 0⟩ 9000 = 2 ^ 32 - 1 :=
  ⟨(claim8_amended ⟨4096, 1000, 0⟩ 100 (by decide) (by decide)
      (by decide)).1 (by decide),
   (claim8_amended ⟨4096, 1000, 0⟩ 9000 (by decide) (by decide)
      (by decide)).2 (by decide)⟩

/-- C9.  `config_pwm` fails with `-ECHNLREQ` whenever at least one channel
is requested, before any other check and without touching the state; with
no channel requested it fails with `-EINVPW` whenever the pulse width lies
outside `[0.4, 3.5175782146e10]` µs; in particular `config_pwm(16, 0.3)`
returns `-EINVPW`. -/
theorem claim9_config_errors :
    (∀ (st : EngineState) (pages : ℤ) (pw : ℚ), false ∈ st.status →
      config_pwm st pages pw = (-ECHNLREQ, st)) ∧
    (∀ (st : EngineState) (pages : ℤ) (pw : ℚ),
      (∀ b ∈ st.status, b = true) → (pw < 2/5 ∨ 35175782146 < pw) →
      config_pwm st pages pw = (-EINVPW, { st with allocated_pages := pages })) ∧
    (config_pwm initState 16 (3/10)).1 = -EINVPW := by
  refine ⟨config_pwm_echnlreq, config_pwm_einvpw, ?_⟩
  rw [config_pwm_einvpw initState 16 (3/10) (by decide) (Or.inl (by norm_num))]

/-- C9 witness: both error paths at concrete inputs — a state with channel 0
requested returns `-ECHNLREQ` untouched, and a 0.2 µs pulse width on the
fresh engine returns `-EINVPW`. -/
theorem claim9_witness :
    config_pwm ⟨50, 100, 10, 16, [false, true, true, true, true, true, true]⟩
        3 7 =
      (-ECHNLREQ,
        ⟨50, 100, 10, 16, [false, true, true, true, true, true, true]⟩) ∧
    config_pwm initState 9 (1/5) =
      (-EINVPW, ⟨50, 100, 10, 9, [true, true, true, true, true, true, true]⟩) := by
  constructor
  · exact claim9_config_errors.1 _ 3 7 (by decide)
  · rw [claim9_config_errors.2.1 initState 9 (1/5) (by decide)
      (Or.inl (by norm_num))]
    rfl

/-- C10.  When `config_pwm` is called with no channel requested and an
out-of-bounds pulse width, it returns `-EINVPW` with `clock_div`, `pwm_rng`
and `pulse_width_us` unchanged, but `allocated_pages` has already been
overwritten with the `pages` argument. -/
theorem claim10_frame_effect (st : EngineState) (pages : ℤ) (pw : ℚ)
    (hall : ∀ b ∈ st.status, b = true)
    (hout : pw < 2/5 ∨ 35175782146 < pw) :
    (config_pwm st pages pw).1 = -EINVPW ∧
    (config_pwm st pages pw).2.clock_div = st.clock_div ∧
    (config_pwm st pages pw).2.pwm_rng = st.pwm_rng ∧
    (config_pwm st pages pw).2.pulse_width_us = st.pulse_width_us ∧
    (config_pwm st pages pw).2.allocated_pages = pages := by
  rw [config_pwm_einvpw st pages pw hall hout]
  exact ⟨rfl, rfl, rfl, rfl, rfl⟩

/-- C10 witness: the frame effect at the concrete call `config_pwm(7, 0.1)`
on the fresh engine. -/
theorem claim10_witness :
    (config_pwm initState 7 (1/10)).1 = -EINVPW ∧
    (config_pwm initState 7 (1/10)).2.clock_div = initState.clock_div ∧
    (config_pwm initState 7 (1/10)).2.pwm_rng = initState.pwm_rng ∧
    (config_pwm initState 7 (1/10)).2.pulse_width_us = initState.pulse_width_us ∧
    (config_pwm initState 7 (1/10)).2.allocated_pages = 7 :=
  claim10_frame_effect initState 7 (1/10) (by decide) (Or.inl (by norm_num))

end DmaPwm
